import Mathlib

/-!
Verification of the Letta streaming pipeline (plugin variants `letta.py` and
`letta_improved.py`) against its natural-language specification.

The embedding models strings as lists of characters (Python strings are
sequences of code points).  Python library behaviour that the source relies on
is embedded as well: `str.split(sep)` (`pySplit`), `str.strip()` (`pyStrip`),
`json.loads` (`parseJson`, returning `none` exactly when the parse fails), and
the `tenacity` retry combinator configured in `letta.py` (`sendRequest`).
-/

/-- Python strings are modelled as lists of characters. -/
abbrev Str := List Char

/-! ## Python `str.split(sep)` for a non-empty separator (used with `"\n\n"`) -/

/-- Locate the first occurrence of `sep` in `s`; return the part before it and
the part after it (`str.find` style scan, left to right). -/
def findSep (sep : Str) : Str → Option (Str × Str)
  | [] => none
  | c :: rest =>
    if sep.isPrefixOf (c :: rest) then some ([], (c :: rest).drop sep.length)
    else
      match findSep sep rest with
      | some (b, a) => some (c :: b, a)
      | none => none

/-- Fuelled worker for `pySplit`; splits at successive non-overlapping
occurrences of `sep`, scanning left to right. -/
def pySplitF (sep : Str) : Nat → Str → List Str
  | 0, s => [s]
  | fuel + 1, s =>
    match findSep sep s with
    | none => [s]
    | some (b, a) => b :: pySplitF sep fuel a

/-- Python `s.split(sep)` for non-empty `sep`: the fuel `s.length + 1` is
always sufficient because each step consumes at least one character. -/
def pySplit (sep s : Str) : List Str := pySplitF sep (s.length + 1) s

/-! ## Python `str.strip()` -/

/-- Characters removed by Python `str.strip()` (ASCII whitespace). -/
def isStripWs (c : Char) : Bool :=
  c = ' ' || c = '\t' || c = '\n' || c = '\r' || c = Char.ofNat 11 || c = Char.ofNat 12

/-- Remove leading whitespace. -/
def stripLeft : Str → Str
  | [] => []
  | c :: rest => if isStripWs c then stripLeft rest else c :: rest

/-- Remove trailing whitespace. -/
def stripRight (s : Str) : Str := (stripLeft s.reverse).reverse

/-- Python `s.strip()`. -/
def pyStrip (s : Str) : Str := stripRight (stripLeft s)

/-! ## JSON values and a model of `json.loads`

The parser follows the grammar accepted by Python `json.loads` with its
default settings: objects, arrays, strings with the standard escapes,
numbers (plus the `NaN` / `Infinity` / `-Infinity` constants), `true`,
`false`, `null`.  Number lexemes are kept verbatim: no claim depends on
numeric values, only on grammatical validity and zero-ness (truthiness). -/

/-- A parsed JSON value.  Duplicate object keys are kept in parse order;
lookups take the last occurrence, as `json.loads` does. -/
inductive Json where
  | null : Json
  | bool (b : Bool) : Json
  | num (lexeme : Str) : Json
  | str (s : Str) : Json
  | arr (items : List Json) : Json
  | obj (fields : List (Str × Json)) : Json

/-- JSON whitespace accepted between tokens. -/
def isJsonWs (c : Char) : Bool :=
  c = ' ' || c = '\t' || c = '\n' || c = '\r'

/-- Skip JSON whitespace. -/
def skipWs : Str → Str
  | [] => []
  | c :: rest => if isJsonWs c then skipWs rest else c :: rest

/-- Decimal digit test. -/
def isDigitCh (c : Char) : Bool := '0' ≤ c && c ≤ '9'

/-- Hexadecimal digit test. -/
def isHexCh (c : Char) : Bool :=
  isDigitCh c || ('a' ≤ c && c ≤ 'f') || ('A' ≤ c && c ≤ 'F')

/-- Value of a hexadecimal digit. -/
def hexVal (c : Char) : Nat :=
  if isDigitCh c then c.toNat - '0'.toNat
  else if 'a' ≤ c && c ≤ 'f' then c.toNat - 'a'.toNat + 10
  else c.toNat - 'A'.toNat + 10

/-- Parse the body of a JSON string literal (after the opening quote):
returns the decoded content and the input remaining after the closing
quote.  Unescaped control characters are rejected, as in strict mode. -/
def parseJStr : Nat → Str → Option (Str × Str)
  | 0, _ => none
  | fuel + 1, s =>
    match s with
    | [] => none
    | '"' :: rest => some ([], rest)
    | '\\' :: e :: rest =>
      match e with
      | '"' => (parseJStr fuel rest).map (fun p => ('"' :: p.1, p.2))
      | '\\' => (parseJStr fuel rest).map (fun p => ('\\' :: p.1, p.2))
      | '/' => (parseJStr fuel rest).map (fun p => ('/' :: p.1, p.2))
      | 'b' => (parseJStr fuel rest).map (fun p => (Char.ofNat 8 :: p.1, p.2))
      | 'f' => (parseJStr fuel rest).map (fun p => (Char.ofNat 12 :: p.1, p.2))
      | 'n' => (parseJStr fuel rest).map (fun p => ('\n' :: p.1, p.2))
      | 'r' => (parseJStr fuel rest).map (fun p => ('\r' :: p.1, p.2))
      | 't' => (parseJStr fuel rest).map (fun p => ('\t' :: p.1, p.2))
      | 'u' =>
        match rest with
        | h1 :: h2 :: h3 :: h4 :: rest2 =>
          if isHexCh h1 && isHexCh h2 && isHexCh h3 && isHexCh h4 then
            (parseJStr fuel rest2).map
              (fun p =>
                (Char.ofNat (((hexVal h1 * 16 + hexVal h2) * 16 + hexVal h3) * 16 + hexVal h4)
                  :: p.1, p.2))
          else none
        | _ => none
      | _ => none
    | c :: rest =>
      if c.toNat < 32 then none
      else (parseJStr fuel rest).map (fun p => (c :: p.1, p.2))

/-- Longest digit prefix of the input and the rest. -/
def takeDigits : Str → Str × Str
  | [] => ([], [])
  | c :: rest =>
    if isDigitCh c then
      match takeDigits rest with
      | (d, r) => (c :: d, r)
    else ([], c :: rest)

/-- Integer part of a JSON number: `0` or a non-zero digit followed by
digits (leading zeros are rejected, as by `json.loads`). -/
def parseIntPart : Str → Option (Str × Str)
  | [] => none
  | c :: rest =>
    if c = '0' then some (['0'], rest)
    else if isDigitCh c then
      match takeDigits rest with
      | (d, r) => some (c :: d, r)
    else none

/-- Parse a JSON number starting at the first character (possibly `-`);
returns the lexeme and the rest of the input. -/
def parseNum (s : Str) : Option (Str × Str) :=
  let (negPart, s1) : Str × Str :=
    match s with
    | '-' :: r => (['-'], r)
    | _ => ([], s)
  match parseIntPart s1 with
  | none => none
  | some (ip, r1) =>
    let (fracPart, r2) : Str × Str :=
      match r1 with
      | '.' :: r =>
        match takeDigits r with
        | ([], _) => ([], '.' :: r)
        | (d, r3) => ('.' :: d, r3)
      | _ => ([], r1)
    let (expPart, r4) : Str × Str :=
      match r2 with
      | 'e' :: '+' :: r =>
        (match takeDigits r with
         | ([], _) => ([], 'e' :: '+' :: r)
         | (d, r3) => ('e' :: '+' :: d, r3))
      | 'e' :: '-' :: r =>
        (match takeDigits r with
         | ([], _) => ([], 'e' :: '-' :: r)
         | (d, r3) => ('e' :: '-' :: d, r3))
      | 'e' :: r =>
        (match takeDigits r with
         | ([], _) => ([], 'e' :: r)
         | (d, r3) => ('e' :: d, r3))
      | 'E' :: '+' :: r =>
        (match takeDigits r with
         | ([], _) => ([], 'E' :: '+' :: r)
         | (d, r3) => ('E' :: '+' :: d, r3))
      | 'E' :: '-' :: r =>
        (match takeDigits r with
         | ([], _) => ([], 'E' :: '-' :: r)
         | (d, r3) => ('E' :: '-' :: d, r3))
      | 'E' :: r =>
        (match takeDigits r with
         | ([], _) => ([], 'E' :: r)
         | (d, r3) => ('E' :: d, r3))
      | _ => ([], r2)
    some (negPart ++ ip ++ fracPart ++ expPart, r4)

mutual

/-- Fuelled parser for one JSON value; mirrors the `json.loads` grammar. -/
def parseVal : Nat → Str → Option (Json × Str)
  | 0, _ => none
  | fuel + 1, s =>
    match skipWs s with
    | [] => none
    | c :: rest =>
      if c = '"' then
        (parseJStr (rest.length + 1) rest).map (fun p => (Json.str p.1, p.2))
      else if c = Char.ofNat 123 then
        match skipWs rest with
        | c2 :: r2 =>
          if c2 = Char.ofNat 125 then some (Json.obj [], r2)
          else parseMembers fuel (c2 :: r2)
        | [] => none
      else if c = '[' then
        match skipWs rest with
        | c2 :: r2 =>
          if c2 = ']' then some (Json.arr [], r2)
          else (parseElems fuel (c2 :: r2)).map (fun p => (Json.arr p.1, p.2))
        | [] => none
      else if "true".data.isPrefixOf (c :: rest) then
        some (Json.bool true, (c :: rest).drop 4)
      else if "false".data.isPrefixOf (c :: rest) then
        some (Json.bool false, (c :: rest).drop 5)
      else if "null".data.isPrefixOf (c :: rest) then
        some (Json.null, (c :: rest).drop 4)
      else if "NaN".data.isPrefixOf (c :: rest) then
        some (Json.num "NaN".data, (c :: rest).drop 3)
      else if "Infinity".data.isPrefixOf (c :: rest) then
        some (Json.num "Infinity".data, (c :: rest).drop 8)
      else if "-Infinity".data.isPrefixOf (c :: rest) then
        some (Json.num "-Infinity".data, (c :: rest).drop 9)
      else
        (parseNum (c :: rest)).map (fun p => (Json.num p.1, p.2))

/-- Parse the members of a non-empty JSON object, up to and including the
closing brace; the object itself is assembled by the caller. -/
def parseMembers : Nat → Str → Option (Json × Str)
  | 0, _ => none
  | fuel + 1, s =>
    match skipWs s with
    | '"' :: r1 =>
      match parseJStr (r1.length + 1) r1 with
      | none => none
      | some (key, r2) =>
        match skipWs r2 with
        | ':' :: r3 =>
          match parseVal fuel r3 with
          | none => none
          | some (v, r4) =>
            match skipWs r4 with
            | ',' :: r5 =>
              (match parseMembers fuel r5 with
               | some (Json.obj fs, r6) => some (Json.obj ((key, v) :: fs), r6)
               | _ => none)
            | c :: r5 =>
              if c = Char.ofNat 125 then some (Json.obj [(key, v)], r5) else none
            | [] => none
        | _ => none
    | _ => none

/-- Parse the elements of a non-empty JSON array, up to and including the
closing bracket. -/
def parseElems : Nat → Str → Option (List Json × Str)
  | 0, _ => none
  | fuel + 1, s =>
    match parseVal fuel s with
    | none => none
    | some (v, r1) =>
      match skipWs r1 with
      | ',' :: r2 => (parseElems fuel r2).map (fun p => (v :: p.1, p.2))
      | ']' :: r2 => some ([v], r2)
      | _ => none

end

/-- Model of Python `json.loads`: parse one value and require only
whitespace after it; `none` models `json.JSONDecodeError`. -/
def parseJson (s : Str) : Option Json :=
  match parseVal (2 * s.length + 2) s with
  | some (j, r) => if skipWs r = [] then some j else none
  | none => none

/-- Last-occurrence lookup in a parsed object, matching the `dict` that
`json.loads` builds (later duplicate keys override earlier ones). -/
def jLookup (fields : List (Str × Json)) (k : Str) : Option Json :=
  match fields with
  | [] => none
  | (k2, v) :: rest =>
    match jLookup rest k with
    | some v2 => some v2
    | none => if k2 = k then some v else none

/-- Whether the mantissa of a JSON number lexeme is all zeros (then the
Python value is falsy). -/
def numIsZero (lexeme : Str) : Bool :=
  let core : Str :=
    match lexeme with
    | '-' :: r => r
    | _ => lexeme
  let mant := core.takeWhile (fun c => c ≠ 'e' && c ≠ 'E')
  !mant.isEmpty && mant.all (fun c => c = '0' || c = '.')

/-- Python truthiness of a parsed JSON value. -/
def Json.truthy : Json → Bool
  | .null => false
  | .bool b => b
  | .num lexeme => !(numIsZero lexeme)
  | .str s => !s.isEmpty
  | .arr items => !items.isEmpty
  | .obj fields => !fields.isEmpty

/-! ## Configuration (the valves of `letta.py`)

Only the fields read by the streaming path are modelled.  `logFails` models
whether appending to the diagnostic response log (`_log_response`, an
unguarded file write) raises an `OSError`. -/

/-- System-level settings (`Pipe.Valves`) read by the streaming path. -/
structure Valves where
  DISPLAY_EVENTS : Bool
  SHOW_REASONING : Bool
  SHOW_USAGE_STATS : Bool
  DEV_MODE : Bool
  LOG_RAW_CHUNKS : Bool
  LOG_PARSED_CHUNKS : Bool
  LOG_EVENTS : Bool
  SAVE_RESPONSES : Bool
deriving DecidableEq

/-- Per-user settings (`Pipe.UserValves`). -/
structure UserValves where
  DISPLAY_EVENTS : Bool
  SHOW_REASONING : Bool
  SHOW_USAGE_STATS : Bool
deriving DecidableEq

/-- A run configuration for `_handle_streaming` in `letta.py`: the valves,
the user valves, whether an event emitter was supplied, and whether the
diagnostic-log file write fails. -/
structure Cfg where
  valves : Valves
  userValves : UserValves
  hasEmitter : Bool
  logFails : Bool
deriving DecidableEq

/-- The `display_events` flag computed in `pipe` (letta.py lines 213-217):
system toggle AND user toggle AND an emitter being present. -/
def displayEvents (cfg : Cfg) : Bool :=
  cfg.valves.DISPLAY_EVENTS && cfg.userValves.DISPLAY_EVENTS && cfg.hasEmitter

/-! ## Observable behaviour of `_handle_streaming` (letta.py) -/

/-- A Python exception escaping a statement of the streaming loop. -/
inductive PErr where
  | jsonAttr
  | typeConcat
  | logWrite
  | readErr
  | noneCall
deriving DecidableEq

/-- One record appended to the diagnostic response log by `_log_response`. -/
inductive LogRecord where
  | rawChunk (s : Str)
  | parsedChunk (j : Json)
  | doneMarker
  | assistantMsg (content : Json)
  | usageStats (j : Json)
  | reasoningRec (step content : Json)
  | parseErrorRec (frame : Str)
  | runErrorRec (e : PErr)

/-- An event pushed to the caller-supplied event emitter by `_dev_event`. -/
inductive Emitted where
  | usage (j : Json)
  | reasoning (step content : Json)
  | warning (frame : Str)
  | statusClear
  | errorEvent (e : PErr)

/-- One observable output of the `_handle_streaming` generator, in order:
a yielded content increment, an emitted sink event, a diagnostic log
record, or the final yielded error payload. -/
inductive Output where
  | content (s : Str)
  | emitted (e : Emitted)
  | logged (r : LogRecord)
  | errorYield (e : PErr)

/-- A unit delivered by the transport: a decoded byte chunk, or a read
error raised while iterating the response stream. -/
inductive ReadItem where
  | chunk (s : Str)
  | readError

/-- Model of a `_log_response` call site: writes one record when
`DEV_MODE and SAVE_RESPONSES`, raising when the file write fails. -/
def tryLog (cfg : Cfg) (r : LogRecord) : List Output × Option PErr :=
  if cfg.valves.DEV_MODE && cfg.valves.SAVE_RESPONSES then
    if cfg.logFails then ([], some PErr.logWrite) else ([Output.logged r], none)
  else ([], none)

/-- Model of `_dev_event`: it returns immediately unless `DEV_MODE` is on,
and only calls the emitter when one was supplied. -/
def devEvent (cfg : Cfg) (e : Emitted) : List Output :=
  if cfg.valves.DEV_MODE && cfg.hasEmitter then [Output.emitted e] else []

/-- Sequence two partial computations: outputs of the first stand; the
second runs only when the first did not raise. -/
def seqOut (a b : List Output × Option PErr) : List Output × Option PErr :=
  match a with
  | (o, some e) => (o, some e)
  | (o, none) => (o ++ b.1, b.2)

/-- Literal `"data: "`. -/
def dataPfx : Str := "data: ".data

/-- Literal `"data: [DONE]"`, the terminal marker frame. -/
def doneFrame : Str := "data: [DONE]".data

/-- The blank-line frame delimiter `"\n\n"`. -/
def nlnl : Str := "\n\n".data

/-- Key `"message_type"`. -/
def mtKey : Str := "message_type".data

/-- Key `"content"`. -/
def contentKey : Str := "content".data

/-- Key `"step"`. -/
def stepKey : Str := "step".data

/-- Discriminator value `"assistant_message"`. -/
def asstTy : Str := "assistant_message".data

/-- Discriminator value `"usage_statistics"`. -/
def usageTy : Str := "usage_statistics".data

/-- Discriminator value `"reasoning_message"`. -/
def reasonTy : Str := "reasoning_message".data

/-- Default step label `"unknown"`. -/
def unknownStr : Str := "unknown".data

/-- Whether an optional JSON value is the given string (Python `==` between
a `dict.get` result and a string literal). -/
def isStrV (o : Option Json) (s : Str) : Bool :=
  match o with
  | some (Json.str t) => t = s
  | _ => false

/-- Dispatch of one parsed data payload that is a JSON object
(letta.py lines 356-379): the if/elif chain on `message_type`. -/
def dispatchObj (cfg : Cfg) (fs : List (Str × Json)) : List Output × Option PErr :=
  let mt := jLookup fs mtKey
  if isStrV mt asstTy then
    let c := (jLookup fs contentKey).getD (Json.str [])
    if c.truthy then
      seqOut (if cfg.valves.DEV_MODE then tryLog cfg (LogRecord.assistantMsg c) else ([], none))
        (match c with
         | Json.str s => ([Output.content (s ++ "\n".data)], none)
         | _ => ([], some PErr.typeConcat))
    else ([], none)
  else if isStrV mt usageTy && cfg.userValves.SHOW_USAGE_STATS then
    if displayEvents cfg then
      seqOut (if cfg.valves.DEV_MODE then tryLog cfg (LogRecord.usageStats (Json.obj fs)) else ([], none))
        (devEvent cfg (Emitted.usage (Json.obj fs)), none)
    else ([], none)
  else if isStrV mt reasonTy && cfg.userValves.SHOW_REASONING then
    if displayEvents cfg then
      let st := (jLookup fs stepKey).getD (Json.str unknownStr)
      let co := (jLookup fs contentKey).getD (Json.str [])
      seqOut (if cfg.valves.DEV_MODE then tryLog cfg (LogRecord.reasoningRec st co) else ([], none))
        (devEvent cfg (Emitted.reasoning st co), none)
    else ([], none)
  else ([], none)

/-- Processing of one piece produced by the `"\n\n"` split
(letta.py lines 334-397): skip non-`data: ` pieces, discard the terminal
marker (logging it in dev mode), otherwise parse the payload and dispatch.
A payload that is valid JSON but not an object raises `AttributeError` at
`chunk_data.get` (caught only by the generator-wide handler). -/
def processFrame (cfg : Cfg) (frame : Str) : List Output × Option PErr :=
  if ¬ dataPfx.isPrefixOf frame then ([], none)
  else if frame = doneFrame then
    (if cfg.valves.DEV_MODE then tryLog cfg LogRecord.doneMarker else ([], none))
  else
    match parseJson (frame.drop 6) with
    | none =>
      seqOut (if cfg.valves.DEV_MODE then tryLog cfg (LogRecord.parseErrorRec frame) else ([], none))
        ((if displayEvents cfg then devEvent cfg (Emitted.warning frame) else []), none)
    | some j =>
      seqOut (if cfg.valves.DEV_MODE && cfg.valves.LOG_PARSED_CHUNKS then tryLog cfg (LogRecord.parsedChunk j) else ([], none))
        (match j with
         | Json.obj fs => dispatchObj cfg fs
         | _ => ([], some PErr.jsonAttr))

/-- Process the pieces of one decoded chunk in order, stopping at the
first escaping exception. -/
def processFrames (cfg : Cfg) : List Str → List Output × Option PErr
  | [] => ([], none)
  | f :: fs => seqOut (processFrame cfg f) (processFrames cfg fs)

/-- Process one transport unit (letta.py lines 325-336): log the raw chunk
in dev mode, split it at blank lines, and process each piece; a transport
read error raises at the iteration itself. -/
def processItem (cfg : Cfg) : ReadItem → List Output × Option PErr
  | ReadItem.readError => ([], some PErr.readErr)
  | ReadItem.chunk s =>
    seqOut (if cfg.valves.DEV_MODE && cfg.valves.LOG_RAW_CHUNKS then tryLog cfg (LogRecord.rawChunk s) else ([], none))
      (processFrames cfg (pySplit nlnl s))

/-- Process the whole sequence of transport units in order. -/
def processItems (cfg : Cfg) : List ReadItem → List Output × Option PErr
  | [] => ([], none)
  | it :: rest => seqOut (processItem cfg it) (processItems cfg rest)

/-- Terminal state of one `_handle_streaming` run. -/
inductive RunStatus where
  | completed
  | failed (e : PErr)
  | raisedErr (e : PErr)
deriving DecidableEq

/-- The full `_handle_streaming` generator (letta.py lines 299-425): on
clean exhaustion it emits the final status-clear event; on an escaping
exception the handler logs it (a write that may itself raise, letting the
exception escape the generator), emits an error event when displaying, and
yields the error payload. -/
def lettaStream (cfg : Cfg) (items : List ReadItem) : List Output × RunStatus :=
  match processItems cfg items with
  | (outs, none) =>
    (outs ++ (if displayEvents cfg then devEvent cfg Emitted.statusClear else []), RunStatus.completed)
  | (outs, some e) =>
    match (if cfg.valves.DEV_MODE then tryLog cfg (LogRecord.runErrorRec e) else ([], none)) with
    | (o2, some e2) => (outs ++ o2, RunStatus.raisedErr e2)
    | (o2, none) =>
      (outs ++ o2 ++ (if displayEvents cfg then devEvent cfg (Emitted.errorEvent e) else [])
        ++ [Output.errorYield e], RunStatus.failed e)

/-- The content increments among a list of outputs, in order (what a
streaming caller accumulates). -/
def contentsOf : List Output → List Str
  | [] => []
  | Output.content s :: rest => s :: contentsOf rest
  | _ :: rest => contentsOf rest

/-- Concatenation of a list of strings. -/
def strJoin : List Str → Str
  | [] => []
  | s :: rest => s ++ strJoin rest

/-! ## Observable behaviour of `get_letta_response` / `pipe` (letta_improved.py)

The transport collaborator (`aiohttp`) delivers the response body as a
sequence of line units; the model takes that delivered sequence as input.
The improved pipe always constructs default `UserValves`, so both show
toggles are `true` there; `get_letta_response` itself is modelled over an
arbitrary configuration. -/

/-- Configuration of one `get_letta_response` call. -/
structure ICfg where
  devMode : Bool
  showUsage : Bool
  showReasoning : Bool
  hasEmitter : Bool
deriving DecidableEq

/-- One event pushed to the event emitter by the improved variant. -/
inductive IOut where
  | statusEv (level : Str) (description : Str) (done : Bool)
  | message (content : Json)
  | usage (j : Json)
  | reasoning (step content : Json)

/-- Result of handling one delivered line. -/
inductive ILineAct where
  | cont (acc : List Json)
  | brk
  | err (e : PErr)

/-- Handling of one delivered line (letta_improved.py lines 247-299):
skip whitespace-only lines and lines without the `data: ` marker, break on
the exact terminal marker, swallow JSON parse errors, and dispatch parsed
objects.  `usage` and `reasoning` events call the emitter without a `None`
check, so their emission with no emitter raises `TypeError`. -/
def iLine (cfg : ICfg) (acc : List Json) (line : Str) : List IOut × ILineAct :=
  if (pyStrip line).isEmpty then ([], ILineAct.cont acc)
  else if ¬ dataPfx.isPrefixOf line then ([], ILineAct.cont acc)
  else if line = doneFrame then ([], ILineAct.brk)
  else
    match parseJson (line.drop 6) with
    | none => ([], ILineAct.cont acc)
    | some j =>
      match j with
      | Json.obj fs =>
        let mt := jLookup fs mtKey
        if isStrV mt asstTy then
          let c := (jLookup fs contentKey).getD (Json.str [])
          if c.truthy then
            ((if cfg.hasEmitter then
                [IOut.statusEv "info".data [] true, IOut.message c]
              else []), ILineAct.cont (acc ++ [c]))
          else ([], ILineAct.cont acc)
        else if isStrV mt usageTy && cfg.showUsage then
          if cfg.hasEmitter then ([IOut.usage (Json.obj fs)], ILineAct.cont acc)
          else ([], ILineAct.err PErr.noneCall)
        else if isStrV mt reasonTy && cfg.showReasoning then
          let st := (jLookup fs stepKey).getD (Json.str unknownStr)
          let co := (jLookup fs contentKey).getD (Json.str [])
          if cfg.hasEmitter then ([IOut.reasoning st co], ILineAct.cont acc)
          else ([], ILineAct.err PErr.noneCall)
        else ([], ILineAct.cont acc)
      | _ => ([], ILineAct.err PErr.jsonAttr)

/-- How the line loop of `get_letta_response` ended. -/
inductive ILoopEnd where
  | ended (acc : List Json)
  | erred (e : PErr)

/-- The `async for line in response.content` loop: events emitted so far
stand even when an exception escapes. -/
def iLoop (cfg : ICfg) (acc : List Json) : List ReadItem → List IOut × ILoopEnd
  | [] => ([], ILoopEnd.ended acc)
  | ReadItem.readError :: _ => ([], ILoopEnd.erred PErr.readErr)
  | ReadItem.chunk line :: rest =>
    match iLine cfg acc line with
    | (o, ILineAct.cont acc2) =>
      match iLoop cfg acc2 rest with
      | (o2, e) => (o ++ o2, e)
    | (o, ILineAct.brk) => (o, ILoopEnd.ended acc)
    | (o, ILineAct.err e) => (o, ILoopEnd.erred e)

/-- All elements as strings, or `none` if one is not a string
("\n".join raises `TypeError` on non-string elements). -/
def asStrs : List Json → Option (List Str)
  | [] => some []
  | Json.str s :: rest => (asStrs rest).map (fun l => s :: l)
  | _ :: _ => none

/-- Python `"\n".join`. -/
def joinNl : List Str → Str
  | [] => []
  | [x] => x
  | x :: rest => x ++ '\n' :: joinNl rest

/-- The whole `get_letta_response` body after the stream is established
(letta_improved.py lines 246-308): returns the joined accumulated content,
or re-raises the escaping exception; emitted events are kept either way. -/
def getLettaResponse (cfg : ICfg) (items : List ReadItem) : List IOut × Except PErr Str :=
  match iLoop cfg [] items with
  | (t, ILoopEnd.ended acc) =>
    match asStrs acc with
    | some ss => (t, Except.ok (joinNl ss))
    | none => (t, Except.error PErr.typeConcat)
  | (t, ILoopEnd.erred e) => (t, Except.error e)

/-- An `emit_status` call (`None`-safe). -/
def emitStatusI (hasEmitter : Bool) (level desc : Str) (done : Bool) : List IOut :=
  if hasEmitter then [IOut.statusEv level desc done] else []

/-- A fixed rendering of Python `str(e)` for the modelled exceptions. -/
def perrName : PErr → Str
  | PErr.jsonAttr => "AttributeError".data
  | PErr.typeConcat => "TypeError".data
  | PErr.logWrite => "OSError".data
  | PErr.readErr => "ReadError".data
  | PErr.noneCall => "NoneTypeError".data

/-- The improved `pipe` around `get_letta_response`
(letta_improved.py lines 361-384), on the default path (no task, no tools,
non-empty messages): an initial status, then the streamed events, then a
success status with the answer, an empty-response error status, or — when
any exception escaped — an error status and the empty string. -/
def improvedPipe (dev hasEmitter : Bool) (items : List ReadItem) : List IOut × Str :=
  let cfg : ICfg := ⟨dev, true, true, hasEmitter⟩
  let t0 := emitStatusI hasEmitter "info".data "Sending request to Letta agent...".data false
  match getLettaResponse cfg items with
  | (t, Except.ok r) =>
    if r.isEmpty then
      (t0 ++ t ++ emitStatusI hasEmitter "error".data "Empty response from Letta agent".data true, [])
    else
      (t0 ++ t ++ emitStatusI hasEmitter "success".data "Response received".data true, r)
  | (t, Except.error e) =>
    (t0 ++ t ++ emitStatusI hasEmitter "error".data ("Error processing request: ".data ++ perrName e) true, [])

/-! ## The retry policy of `_send_request` (letta.py lines 34-47)

`tenacity.retry` with `stop_after_attempt(3)`,
`wait_exponential(multiplier=1, min=4, max=10)` and
`retry_if_exception_type((urllib3.exceptions.TimeoutError,
urllib3.exceptions.HTTPError))`.  An attempt behaviour function gives the
outcome of the n-th attempt (1-based). -/

/-- The exception classes relevant to the retry predicate. -/
inductive ExcType where
  | timeoutErr
  | httpErr
  | otherErr
deriving DecidableEq

/-- Outcome of one establishment attempt. -/
inductive AttemptOutcome where
  | success
  | failure (e : ExcType)
deriving DecidableEq

/-- The `retry_if_exception_type` predicate: timeouts and
connection-level `HTTPError`s are transient. -/
def retryable : ExcType → Bool
  | ExcType.timeoutErr => true
  | ExcType.httpErr => true
  | ExcType.otherErr => false

/-- `wait_exponential(multiplier=1, min=4, max=10)` evaluated after the
n-th attempt: `multiplier * 2 ^ n`, clamped into `[min, max]`. -/
def waitExpDelay (n : Nat) : Nat := max 4 (min (1 * 2 ^ n) 10)

/-- Result of the retrying call: established (with the number of attempts
made and the sleeps taken), a non-retryable exception re-raised, or
`RetryError` after the stop condition. -/
inductive RetryResult where
  | ok (attemptsMade : Nat) (delays : List Nat)
  | reraised (e : ExcType) (attemptsMade : Nat) (delays : List Nat)
  | exhausted (attemptsMade : Nat) (delays : List Nat)
deriving DecidableEq

/-- Number of attempts actually begun. -/
def RetryResult.attempts : RetryResult → Nat
  | RetryResult.ok n _ => n
  | RetryResult.reraised _ n _ => n
  | RetryResult.exhausted n _ => n

/-- The sleeps taken between attempts, in order. -/
def RetryResult.delays : RetryResult → List Nat
  | RetryResult.ok _ d => d
  | RetryResult.reraised _ _ d => d
  | RetryResult.exhausted _ d => d

/-- The tenacity loop: after a failed attempt the retry predicate is
consulted first (a non-matching exception is re-raised), then the stop
condition (`attempt_number >= 3` raises `RetryError`), otherwise the wait
is slept and the next attempt begun. -/
def tenacityGo (outcome : Nat → AttemptOutcome) : Nat → Nat → List Nat → RetryResult
  | 0, n, ds => RetryResult.exhausted (n - 1) ds
  | fuel + 1, n, ds =>
    match outcome n with
    | AttemptOutcome.success => RetryResult.ok n ds
    | AttemptOutcome.failure e =>
      if retryable e then
        if 3 ≤ n then RetryResult.exhausted n ds
        else tenacityGo outcome fuel (n + 1) (ds ++ [waitExpDelay n])
      else RetryResult.reraised e n ds

/-- `_send_request` under its retry decoration. -/
def sendRequest (outcome : Nat → AttemptOutcome) : RetryResult :=
  tenacityGo outcome 3 1 []

/-- The full letta.py run shape: establish the stream (with retry), then —
only when establishment succeeded — process the stream exactly once. -/
def fullRun (cfg : Cfg) (outcome : Nat → AttemptOutcome) (items : List ReadItem) :
    RetryResult × Option (List Output × RunStatus) :=
  match sendRequest outcome with
  | RetryResult.ok n d => (RetryResult.ok n d, some (lettaStream cfg items))
  | r => (r, none)

/-! ## Message formatting and the outbound payload -/

/-- A chat message. -/
structure Msg where
  role : Str
  content : Str
deriving DecidableEq

/-- `_format_messages` applied to one message (letta.py lines 280-285):
any role other than `system` becomes `user`. -/
def lettaFormatOne (m : Msg) : Msg :=
  ⟨if m.role = "system".data then "system".data else "user".data, m.content⟩

/-- `_format_messages` (letta.py lines 277-286). -/
def lettaFormatMessages (msgs : List Msg) : List Msg := msgs.map lettaFormatOne

/-- The `messages` field of the outbound payload built in `pipe`
(letta.py lines 225-244): `[messages[-1]]`, or `[{}]` (modelled as
`[none]`) when the formatted history is empty. -/
def lettaPayloadMessages (msgs : List Msg) : List (Option Msg) :=
  [(lettaFormatMessages msgs).getLast?]

/-- Role filter of the improved `format_messages`
(letta_improved.py lines 191-193). -/
def improvedRoleOk (m : Msg) : Bool :=
  m.role = "user".data || m.role = "system".data || m.role = "assistant".data

/-- `format_messages` (letta_improved.py lines 187-207): filter unsupported
roles, map the rest, and fall back to one `user`/`Hello` message. -/
def improvedFormatMessages (msgs : List Msg) : List Msg :=
  let fs := (msgs.filter improvedRoleOk).map lettaFormatOne
  if fs.isEmpty then [⟨"user".data, "Hello".data⟩] else fs

/-- The `messages` field of the improved outbound payload
(letta_improved.py lines 222-227): `[formatted_messages[-1]]`. -/
def improvedPayloadMessages (msgs : List Msg) : List Msg :=
  match (improvedFormatMessages msgs).getLast? with
  | some m => [m]
  | none => []

/-! ## The frame-splitting step in isolation (letta.py lines 333-336)

Each decoded chunk is split at blank-line delimiters on its own and the
pieces carrying the `data: ` marker are kept; this is the FrameSplitter of
the specification as `letta.py` implements it. -/

/-- Frames extracted from a single decoded chunk. -/
def chunkFrames (c : Str) : List Str :=
  (pySplit nlnl c).filter (fun f => dataPfx.isPrefixOf f)

/-- Frames extracted from a fragmented stream, chunk by chunk. -/
def framesOfChunks : List Str → List Str
  | [] => []
  | c :: rest => chunkFrames c ++ framesOfChunks rest

/-! ## Concrete scenario inputs shared by the claim theorems -/

/-- The scenario-A assistant payload. -/
def asstHiPayload : Str := "\x7b\"message_type\":\"assistant_message\",\"content\":\"Hi\"\x7d".data

/-- The scenario-A assistant data frame. -/
def asstHiFrame : Str := dataPfx ++ asstHiPayload

/-- A usage-statistics payload. -/
def usagePayload : Str := "\x7b\"message_type\":\"usage_statistics\"\x7d".data

/-- The scenario-A wire stream delivered as one chunk. -/
def scenarioA : Str := asstHiFrame ++ nlnl ++ doneFrame ++ nlnl

/-- The scenario-A stream with the terminal marker moved in front of the
assistant frame. -/
def doneFirstStream : Str := doneFrame ++ nlnl ++ asstHiFrame ++ nlnl

/-- The scenario-A stream delivered unfragmented. -/
def c1chunksA : List Str := [asstHiFrame ++ nlnl]

/-- The same bytes with one chunk boundary in the middle of the frame. -/
def c1chunksB : List Str :=
  ["data: \x7b\"message_type\":\"assist".data,
   "ant_message\",\"content\":\"Hi\"\x7d\n\n".data]

/-- A configuration with every toggle off and no emitter. -/
def cfgQuiet : Cfg :=
  ⟨⟨false, false, false, false, false, false, false, false⟩, ⟨false, false, false⟩, false, false⟩

/-- A configuration with the system-level `SHOW_USAGE_STATS` off but the
user-level toggle on, events displayed, dev mode on, and a reliable
diagnostic log (writes disabled via `SAVE_RESPONSES = false`). -/
def c5cfg : Cfg :=
  ⟨⟨true, true, false, true, false, false, false, false⟩, ⟨true, true, true⟩, true, false⟩

/-- A configuration with diagnostics enabled (`DEV_MODE`, `SAVE_RESPONSES`,
`LOG_RAW_CHUNKS`) and a failing diagnostic-log write. -/
def c8cfg : Cfg :=
  ⟨⟨false, false, false, true, true, false, false, true⟩, ⟨false, false, false⟩, false, true⟩

/-- The scenario-A stream as delivered line units for the improved variant. -/
def scenarioALines : List ReadItem :=
  [ReadItem.chunk asstHiFrame, ReadItem.chunk [], ReadItem.chunk doneFrame]

/-- An assistant frame followed by a mid-stream transport read error. -/
def partialThenError : List ReadItem :=
  [ReadItem.chunk asstHiFrame, ReadItem.readError]

/-! ## Theorems -/

/-- Correctness of `findSep`: a hit decomposes the input around the
separator. -/
theorem findSep_eq (sep : Str) : ∀ (s b a : Str), findSep sep s = some (b, a) → s = b ++ (sep ++ a) := by
  intro s
  induction s with
  | nil => intro b a h; simp [findSep] at h
  | cons c rest ih =>
    intro b a h
    rw [findSep] at h
    split at h
    · rename_i hp
      simp only [Option.some.injEq, Prod.mk.injEq] at h
      obtain ⟨hb, ha⟩ := h
      subst hb; subst ha
      obtain ⟨t, ht⟩ := List.isPrefixOf_iff_prefix.mp hp
      rw [← ht, List.drop_left, List.nil_append]
    · split at h
      · rename_i b2 a2 heq
        simp only [Option.some.injEq, Prod.mk.injEq] at h
        obtain ⟨hb, ha⟩ := h
        subst hb; subst ha
        have := ih b2 a2 heq
        simp [this]
      · exact absurd h (by simp)

/-- Every piece produced by the fuelled splitter is a contiguous substring
of the input. -/
theorem pySplitF_mem_infix (sep : Str) : ∀ (fuel : Nat) (s p : Str), p ∈ pySplitF sep fuel s → p <:+: s := by
  intro fuel
  induction fuel with
  | zero =>
    intro s p h
    rw [pySplitF] at h
    simp only [List.mem_singleton] at h
    subst h
    exact List.infix_rfl
  | succ fuel ih =>
    intro s p h
    rw [pySplitF] at h
    split at h
    · simp only [List.mem_singleton] at h
      subst h
      exact List.infix_rfl
    · rename_i b a heq
      have hs := findSep_eq sep s b a heq
      rcases List.mem_cons.mp h with rfl | hmem
      · rw [hs]
        exact (List.prefix_append p (sep ++ a)).isInfix
      · have h1 := ih a p hmem
        have h2 : a <:+ s := by
          rw [hs]
          exact (List.suffix_append sep a).trans (List.suffix_append b (sep ++ a))
        exact h1.trans h2.isInfix

/-- Frame extraction distributes over concatenation of chunk lists. -/
theorem framesOfChunks_append (A B : List Str) :
    framesOfChunks (A ++ B) = framesOfChunks A ++ framesOfChunks B := by
  induction A with
  | nil => simp [framesOfChunks]
  | cons c rest ih =>
    show chunkFrames c ++ framesOfChunks (rest ++ B) = chunkFrames c ++ framesOfChunks rest ++ framesOfChunks B
    rw [ih, List.append_assoc]

/-- Every extracted frame lies inside a single chunk. -/
theorem framesOfChunks_infix : ∀ (chunks : List Str) (f : Str), f ∈ framesOfChunks chunks → ∃ c ∈ chunks, f <:+: c := by
  intro chunks
  induction chunks with
  | nil => intro f h; simp [framesOfChunks] at h
  | cons c rest ih =>
    intro f h
    rw [framesOfChunks] at h
    rcases List.mem_append.mp h with h1 | h2
    · exact ⟨c, List.mem_cons_self c rest, pySplitF_mem_infix nlnl _ c f (List.mem_filter.mp h1).1⟩
    · obtain ⟨c2, hc2, hf⟩ := ih f h2
      exact ⟨c2, List.mem_cons_of_mem c hc2, hf⟩

/-- Claim C1, counterexample: the same logical byte stream fragmented at a
chunk boundary inside the assistant frame yields a different frame
sequence than the unfragmented delivery, so the frame-splitting step is
not invariant under re-chunking. -/
theorem c1_counterexample :
    strJoin c1chunksA = strJoin c1chunksB ∧
    framesOfChunks c1chunksA ≠ framesOfChunks c1chunksB := by
  refine ⟨rfl, ?_⟩
  decide

/-- Claim C1 (amended): the frame-splitting step of `letta.py` is
chunk-local — frames of a fragmented stream are the frames of each chunk
computed independently and concatenated, and every produced frame lies
inside a single transport chunk.  Nothing is buffered across a chunk
boundary, so a frame spanning two chunks is split into pieces rather than
reassembled, and re-chunking the same logical stream can change the frame
sequence. -/
theorem c1_chunk_local :
    (∀ A B : List Str, framesOfChunks (A ++ B) = framesOfChunks A ++ framesOfChunks B) ∧
    (∀ (chunks : List Str) (f : Str), f ∈ framesOfChunks chunks → ∃ c ∈ chunks, f <:+: c) :=
  ⟨framesOfChunks_append, framesOfChunks_infix⟩

/-- Claim C1 witness: the amended theorem applied to the concrete
scenario-A fragmentations. -/
theorem c1_chunk_local_witness :
    framesOfChunks (c1chunksA ++ c1chunksB) = framesOfChunks c1chunksA ++ framesOfChunks c1chunksB ∧
    ∃ c ∈ c1chunksA, asstHiFrame <:+: c :=
  ⟨c1_chunk_local.1 c1chunksA c1chunksB,
   c1_chunk_local.2 c1chunksA asstHiFrame (by decide)⟩

/-- Claim C2, counterexample: in `letta.py` the `[DONE]` marker is handled
with `continue`, so a stream carrying the marker before an assistant frame
still yields that content — frames after the marker are processed and
their content accumulated, contradicting the claim. -/
theorem c2_counterexample :
    pySplit nlnl doneFirstStream = [doneFrame, asstHiFrame, []] ∧
    lettaStream cfgQuiet [ReadItem.chunk doneFirstStream] =
      ([Output.content "Hi\n".data], RunStatus.completed) :=
  ⟨rfl, rfl⟩

/-- Claim C2 (amended): in the improved variant the marker line breaks the
read loop, so lines after it are never processed; in the original variant
the marker frame is merely discarded — it produces no output itself and
processing continues with the subsequent stream unchanged. -/
theorem c2_done_marker :
    (∀ (cfg : ICfg) (acc : List Json) (pre rest : List ReadItem),
      iLoop cfg acc (pre ++ ReadItem.chunk doneFrame :: rest) =
        iLoop cfg acc (pre ++ [ReadItem.chunk doneFrame])) ∧
    (∀ (cfg : Cfg) (rest : List ReadItem), cfg.valves.DEV_MODE = false →
      lettaStream cfg (ReadItem.chunk doneFrame :: rest) = lettaStream cfg rest) := by
  constructor
  · intro cfg acc pre
    induction pre generalizing acc with
    | nil =>
      intro rest
      have hline : iLine cfg acc doneFrame = ([], ILineAct.brk) := rfl
      show iLoop cfg acc (ReadItem.chunk doneFrame :: rest) = iLoop cfg acc [ReadItem.chunk doneFrame]
      rw [iLoop, iLoop, hline]
    | cons x pre ih =>
      intro rest
      cases x with
      | readError =>
        rw [List.cons_append, List.cons_append, iLoop, iLoop]
      | chunk l =>
        rw [List.cons_append, List.cons_append, iLoop, iLoop]
        simp only [ih]
  · intro cfg rest hdev
    have h1 : dataPfx.isPrefixOf doneFrame = true := rfl
    have h2 : pySplit nlnl doneFrame = [doneFrame] := rfl
    have hitem : processItem cfg (ReadItem.chunk doneFrame) = ([], none) := by
      simp [processItem, processFrames, processFrame, h1, h2, hdev, seqOut]
    have hpi : processItems cfg (ReadItem.chunk doneFrame :: rest) = processItems cfg rest := by
      rw [processItems, hitem]
      show ([] ++ (processItems cfg rest).1, (processItems cfg rest).2) = processItems cfg rest
      simp
    rw [lettaStream, lettaStream, hpi]

/-- Claim C2 witness: the amended theorem applied to concrete streams. -/
theorem c2_done_marker_witness :
    iLoop ⟨false, true, true, true⟩ []
        ([ReadItem.chunk asstHiFrame] ++ ReadItem.chunk doneFrame :: [ReadItem.chunk asstHiFrame]) =
      iLoop ⟨false, true, true, true⟩ [] ([ReadItem.chunk asstHiFrame] ++ [ReadItem.chunk doneFrame]) ∧
    lettaStream cfgQuiet (ReadItem.chunk doneFrame :: [ReadItem.chunk scenarioA]) =
      lettaStream cfgQuiet [ReadItem.chunk scenarioA] :=
  ⟨c2_done_marker.1 _ _ _ _, c2_done_marker.2 cfgQuiet _ rfl⟩

/-- A non-whitespace character at the end survives `stripLeft`. -/
theorem stripLeft_append_singleton_ne (c : Char) (h : isStripWs c = false) :
    ∀ xs : Str, stripLeft (xs ++ [c]) ≠ [] := by
  intro xs
  induction xs with
  | nil => simp [stripLeft, h]
  | cons x rest ih =>
    rw [List.cons_append, stripLeft]
    split
    · exact ih
    · simp

/-- A string starting with a non-whitespace character does not strip to
the empty string. -/
theorem pyStrip_cons_ne (c : Char) (s : Str) (h : isStripWs c = false) :
    pyStrip (c :: s) ≠ [] := by
  rw [pyStrip]
  have h1 : stripLeft (c :: s) = c :: s := by rw [stripLeft, h]; simp
  rw [h1, stripRight, List.reverse_cons]
  intro hz
  rw [List.reverse_eq_nil_iff] at hz
  exact stripLeft_append_singleton_ne c h s.reverse hz

/-- Claim C3: for a data frame whose payload is not valid JSON (and which
is not the terminal marker), frame processing in `letta.py` raises no
exception; it produces exactly the parse-error surfacing that the
diagnostics and display toggles select — a diagnostic log record carrying
the offending frame text when diagnostics are on, and a warning event
carrying the frame text when events are displayed — and processing
continues with the following frames unchanged.  The improved variant
likewise swallows the parse error and continues. -/
theorem c3_parse_error_recovery (cfg : Cfg) (p : Str) (fs : List Str)
    (hlog : cfg.logFails = false)
    (hbad : parseJson p = none)
    (hnd : p ≠ "[DONE]".data) :
    processFrame cfg (dataPfx ++ p) =
      ((if cfg.valves.DEV_MODE && cfg.valves.SAVE_RESPONSES then
          [Output.logged (LogRecord.parseErrorRec (dataPfx ++ p))] else []) ++
        (if displayEvents cfg then devEvent cfg (Emitted.warning (dataPfx ++ p)) else []), none) ∧
    processFrames cfg ((dataPfx ++ p) :: fs) =
      ((processFrame cfg (dataPfx ++ p)).1 ++ (processFrames cfg fs).1, (processFrames cfg fs).2) ∧
    (∀ (icfg : ICfg) (acc : List Json), iLine icfg acc (dataPfx ++ p) = ([], ILineAct.cont acc)) := by
  have hd : doneFrame = dataPfx ++ "[DONE]".data := rfl
  have hpre : dataPfx.isPrefixOf (dataPfx ++ p) = true :=
    List.isPrefixOf_iff_prefix.mpr (List.prefix_append _ _)
  have hne : ¬ (dataPfx ++ p = doneFrame) := by
    intro he
    exact hnd (List.append_cancel_left (he.trans hd))
  have hdrop : (dataPfx ++ p).drop 6 = p := List.drop_left dataPfx p
  have hmain : processFrame cfg (dataPfx ++ p) =
      ((if cfg.valves.DEV_MODE && cfg.valves.SAVE_RESPONSES then
          [Output.logged (LogRecord.parseErrorRec (dataPfx ++ p))] else []) ++
        (if displayEvents cfg then devEvent cfg (Emitted.warning (dataPfx ++ p)) else []), none) := by
    rw [processFrame, if_neg (by simp [hpre]), if_neg hne, hdrop, hbad]
    cases hD : cfg.valves.DEV_MODE <;> cases hS : cfg.valves.SAVE_RESPONSES <;>
      simp [tryLog, seqOut, hlog, hD, hS]
  refine ⟨hmain, ?_, ?_⟩
  · rw [processFrames, hmain]
    rfl
  · intro icfg acc
    have hstrip0 : pyStrip (dataPfx ++ p) ≠ [] := pyStrip_cons_ne 'd' ("ata: ".data ++ p) rfl
    have hstrip : (pyStrip (dataPfx ++ p)).isEmpty = false := by
      cases hpy : pyStrip (dataPfx ++ p) with
      | nil => exact absurd hpy hstrip0
      | cons a b => rfl
    rw [iLine, if_neg (by simp [hstrip]), if_neg (by simp [hpre]), if_neg hne, hdrop, hbad]

/-- Claim C3 witness: the theorem at a concrete malformed payload. -/
theorem c3_witness :
    processFrame cfgQuiet (dataPfx ++ "notjson".data) = ([], none) ∧
    processFrames cfgQuiet [dataPfx ++ "notjson".data] =
      ((processFrame cfgQuiet (dataPfx ++ "notjson".data)).1 ++ (processFrames cfgQuiet []).1,
        (processFrames cfgQuiet []).2) ∧
    iLine ⟨false, true, true, true⟩ [] (dataPfx ++ "notjson".data) = ([], ILineAct.cont []) := by
  have h := c3_parse_error_recovery cfgQuiet "notjson".data [] rfl rfl (by decide)
  exact ⟨h.1, h.2.1, h.2.2 ⟨false, true, true, true⟩ []⟩

/-- Claim C4: under the tenacity configuration of `_send_request`, at most
3 attempts are ever begun; the sleeps taken are exactly the exponential
waits `waitExpDelay n` (multiplier 1, floored at 4, capped at 10) for each
failed attempt; a non-transient exception on the first attempt is
re-raised at once with no retry; and when every attempt fails with a
transient exception, exactly 3 attempts are made, the run fails terminally
with `RetryError`, and no further attempt is begun. -/
theorem c4_retry_policy (outcome : Nat → AttemptOutcome) :
    (sendRequest outcome).attempts ≤ 3 ∧
    (sendRequest outcome).delays =
      (List.range ((sendRequest outcome).attempts - 1)).map (fun k => waitExpDelay (k + 1)) ∧
    (∀ e, retryable e = false → outcome 1 = AttemptOutcome.failure e →
      sendRequest outcome = RetryResult.reraised e 1 []) ∧
    ((∀ n, 1 ≤ n → n ≤ 3 → ∃ e, outcome n = AttemptOutcome.failure e ∧ retryable e = true) →
      sendRequest outcome = RetryResult.exhausted 3 [waitExpDelay 1, waitExpDelay 2]) := by
  have habs : ∀ e1, retryable e1 = true →
      (∀ e, retryable e = false → AttemptOutcome.failure e1 = AttemptOutcome.failure e →
        sendRequest outcome = RetryResult.reraised e 1 []) := by
    intro e1 hr1 e hre hout
    injection hout with he
    subst he
    rw [hre] at hr1
    exact Bool.noConfusion hr1
  rcases h1 : outcome 1 with _ | e1
  · have hr : sendRequest outcome = RetryResult.ok 1 [] := by
      simp [sendRequest, tenacityGo, h1]
    refine ⟨by rw [hr]; simp [RetryResult.attempts], by rw [hr]; rfl, ?_, ?_⟩
    · intro e _ hout
      exact AttemptOutcome.noConfusion hout
    · intro h
      obtain ⟨e, he, _⟩ := h 1 (by omega) (by omega)
      rw [h1] at he
      exact AttemptOutcome.noConfusion he
  · cases hr1 : retryable e1 with
    | false =>
      have hr : sendRequest outcome = RetryResult.reraised e1 1 [] := by
        simp [sendRequest, tenacityGo, h1, hr1]
      refine ⟨by rw [hr]; simp [RetryResult.attempts], by rw [hr]; rfl, ?_, ?_⟩
      · intro e hre hout
        injection hout with he
        subst he
        exact hr
      · intro h
        obtain ⟨e, he, hre⟩ := h 1 (by omega) (by omega)
        rw [h1] at he
        injection he with he2
        subst he2
        rw [hre] at hr1
        exact Bool.noConfusion hr1
    | true =>
      rcases h2 : outcome 2 with _ | e2
      · have hr : sendRequest outcome = RetryResult.ok 2 [waitExpDelay 1] := by
          simp [sendRequest, tenacityGo, h1, hr1, h2]
        refine ⟨by rw [hr]; simp [RetryResult.attempts], by rw [hr]; rfl, ?_, ?_⟩
        · intro e hre hout
          exact habs e1 hr1 e hre hout
        · intro h
          obtain ⟨e, he, _⟩ := h 2 (by omega) (by omega)
          rw [h2] at he
          exact AttemptOutcome.noConfusion he
      · cases hr2 : retryable e2 with
        | false =>
          have hr : sendRequest outcome = RetryResult.reraised e2 2 [waitExpDelay 1] := by
            simp [sendRequest, tenacityGo, h1, hr1, h2, hr2]
          refine ⟨by rw [hr]; simp [RetryResult.attempts], by rw [hr]; rfl, ?_, ?_⟩
          · intro e hre hout
            exact habs e1 hr1 e hre hout
          · intro h
            obtain ⟨e, he, hre⟩ := h 2 (by omega) (by omega)
            rw [h2] at he
            injection he with he2
            subst he2
            rw [hre] at hr2
            exact Bool.noConfusion hr2
        | true =>
          rcases h3 : outcome 3 with _ | e3
          · have hr : sendRequest outcome = RetryResult.ok 3 [waitExpDelay 1, waitExpDelay 2] := by
              simp [sendRequest, tenacityGo, h1, hr1, h2, hr2, h3]
            refine ⟨by rw [hr]; simp [RetryResult.attempts], by rw [hr]; rfl, ?_, ?_⟩
            · intro e hre hout
              exact habs e1 hr1 e hre hout
            · intro h
              obtain ⟨e, he, _⟩ := h 3 (by omega) (by omega)
              rw [h3] at he
              exact AttemptOutcome.noConfusion he
          · cases hr3 : retryable e3 with
            | false =>
              have hr : sendRequest outcome =
                  RetryResult.reraised e3 3 [waitExpDelay 1, waitExpDelay 2] := by
                simp [sendRequest, tenacityGo, h1, hr1, h2, hr2, h3, hr3]
              refine ⟨by rw [hr]; simp [RetryResult.attempts], by rw [hr]; rfl, ?_, ?_⟩
              · intro e hre hout
                exact habs e1 hr1 e hre hout
              · intro h
                obtain ⟨e, he, hre⟩ := h 3 (by omega) (by omega)
                rw [h3] at he
                injection he with he2
                subst he2
                rw [hre] at hr3
                exact Bool.noConfusion hr3
            | true =>
              have hr : sendRequest outcome =
                  RetryResult.exhausted 3 [waitExpDelay 1, waitExpDelay 2] := by
                simp [sendRequest, tenacityGo, h1, hr1, h2, hr2, h3, hr3]
              refine ⟨by rw [hr]; simp [RetryResult.attempts], by rw [hr]; rfl, ?_, fun _ => hr⟩
              intro e hre hout
              exact habs e1 hr1 e hre hout

/-- Claim C4 witness: two transient failures then success make exactly 3
attempts with the clamped waits 4 and 4; three transient failures exhaust
the retries; a non-transient failure is re-raised with no retry. -/
theorem c4_retry_policy_witness :
    sendRequest (fun _ => AttemptOutcome.failure ExcType.timeoutErr) =
      RetryResult.exhausted 3 [4, 4] ∧
    sendRequest (fun _ => AttemptOutcome.failure ExcType.otherErr) =
      RetryResult.reraised ExcType.otherErr 1 [] := by
  constructor
  · have h := (c4_retry_policy (fun _ => AttemptOutcome.failure ExcType.timeoutErr)).2.2.2
      (fun n _ _ => ⟨ExcType.timeoutErr, rfl, rfl⟩)
    rw [h]
    decide
  · exact (c4_retry_policy (fun _ => AttemptOutcome.failure ExcType.otherErr)).2.2.1
      ExcType.otherErr rfl rfl

/-- Claim C5, counterexample: with the system-level `SHOW_USAGE_STATS`
valve disabled but the user-level toggle enabled (and events displayed in
dev mode), a `usage_statistics` frame still reaches the sink — the
user-level toggle is not merely narrowing; the system-level setting is
never consulted by the dispatch. -/
theorem c5_counterexample :
    c5cfg.valves.SHOW_USAGE_STATS = false ∧
    lettaStream c5cfg [ReadItem.chunk (dataPfx ++ usagePayload ++ nlnl)] =
      ([Output.emitted (Emitted.usage (Json.obj [(mtKey, Json.str usageTy)])),
        Output.emitted Emitted.statusClear], RunStatus.completed) :=
  ⟨rfl, rfl⟩

/-- Claim C5 (amended): a `usage_statistics` event is forwarded to the
sink exactly when the user-level `SHOW_USAGE_STATS` toggle is on, events
are displayed (system and user `DISPLAY_EVENTS` with an emitter present),
and `DEV_MODE` is on (because `_dev_event` returns early otherwise); the
system-level `SHOW_USAGE_STATS` valve plays no role. -/
theorem c5_usage_gating (cfg : Cfg) (p : Str) (fs : List (Str × Json))
    (hlog : cfg.logFails = false)
    (hp : parseJson p = some (Json.obj fs))
    (hmt : jLookup fs mtKey = some (Json.str usageTy)) :
    (processFrame cfg (dataPfx ++ p)).2 = none ∧
    (Output.emitted (Emitted.usage (Json.obj fs)) ∈ (processFrame cfg (dataPfx ++ p)).1 ↔
      (cfg.userValves.SHOW_USAGE_STATS = true ∧ displayEvents cfg = true ∧
        cfg.valves.DEV_MODE = true)) := by
  have hpre : dataPfx.isPrefixOf (dataPfx ++ p) = true :=
    List.isPrefixOf_iff_prefix.mpr (List.prefix_append _ _)
  have hd : doneFrame = dataPfx ++ "[DONE]".data := rfl
  have hnone : parseJson "[DONE]".data = none := rfl
  have hne : ¬ (dataPfx ++ p = doneFrame) := by
    intro he
    have hps : p = "[DONE]".data := List.append_cancel_left (he.trans hd)
    rw [hps, hnone] at hp
    exact Option.noConfusion hp
  have hdrop : (dataPfx ++ p).drop 6 = p := List.drop_left dataPfx p
  have hA : isStrV (jLookup fs mtKey) asstTy = false := by rw [hmt]; rfl
  have hU : isStrV (jLookup fs mtKey) usageTy = true := by rw [hmt]; rfl
  have hR : isStrV (jLookup fs mtKey) reasonTy = false := by rw [hmt]; rfl
  refine ⟨?_, ?_⟩ <;>
    (cases hSU : cfg.userValves.SHOW_USAGE_STATS <;>
     cases hDev : cfg.valves.DEV_MODE <;>
     cases hLP : cfg.valves.LOG_PARSED_CHUNKS <;>
     cases hSave : cfg.valves.SAVE_RESPONSES <;>
     cases hDE : cfg.valves.DISPLAY_EVENTS <;>
     cases hUDE : cfg.userValves.DISPLAY_EVENTS <;>
     cases hEmit : cfg.hasEmitter <;>
     simp [processFrame, hpre, hne, hdrop, hp, dispatchObj, tryLog, devEvent, seqOut,
           displayEvents, hlog, hSU, hDev, hLP, hSave, hDE, hUDE, hEmit, hA, hU, hR])

/-- Claim C5 witness: the amended theorem at the concrete usage frame and
the counterexample configuration. -/
theorem c5_usage_gating_witness :
    (processFrame c5cfg (dataPfx ++ usagePayload)).2 = none ∧
    (Output.emitted (Emitted.usage (Json.obj [(mtKey, Json.str usageTy)])) ∈
        (processFrame c5cfg (dataPfx ++ usagePayload)).1 ↔
      (c5cfg.userValves.SHOW_USAGE_STATS = true ∧ displayEvents c5cfg = true ∧
        c5cfg.valves.DEV_MODE = true)) :=
  c5_usage_gating c5cfg usagePayload [(mtKey, Json.str usageTy)] rfl rfl rfl

/-- Claim C6, counterexample: `letta.py` yields every content increment
with a trailing newline, so on the scenario-A stream the accumulated
answer is "Hi\n", not "Hi". -/
theorem c6_counterexample :
    lettaStream cfgQuiet [ReadItem.chunk scenarioA] =
      ([Output.content "Hi\n".data], RunStatus.completed) ∧
    strJoin (contentsOf (lettaStream cfgQuiet [ReadItem.chunk scenarioA]).1) ≠ "Hi".data := by
  refine ⟨rfl, ?_⟩
  decide

/-- Claim C6 (amended): on the scenario-A stream the original variant
completes with the single increment "Hi\n" (so its accumulated answer is
"Hi\n"); the improved variant returns exactly "Hi" and its sink receives
exactly one content increment "Hi" (preceded by the request and
status-clear events) followed by the success completion status. -/
theorem c6_scenario_a :
    lettaStream cfgQuiet [ReadItem.chunk scenarioA] =
      ([Output.content "Hi\n".data], RunStatus.completed) ∧
    improvedPipe false true scenarioALines =
      ([IOut.statusEv "info".data "Sending request to Letta agent...".data false,
        IOut.statusEv "info".data [] true,
        IOut.message (Json.str "Hi".data),
        IOut.statusEv "success".data "Response received".data true], "Hi".data) :=
  ⟨rfl, rfl⟩

/-- Claim C7, counterexample: in the improved variant a read error after
one assistant frame makes `pipe` return the empty string — the
accumulated partial answer "Hi" is discarded, even though the sink had
already received it as a message event. -/
theorem c7_counterexample :
    improvedPipe false true partialThenError =
      ([IOut.statusEv "info".data "Sending request to Letta agent...".data false,
        IOut.statusEv "info".data [] true,
        IOut.message (Json.str "Hi".data),
        IOut.statusEv "error".data ("Error processing request: ".data ++ perrName PErr.readErr) true],
       []) ∧
    ([] : Str) ≠ "Hi".data := by
  refine ⟨rfl, ?_⟩
  decide

/-- Claim C7 (amended): a mid-stream read error ends the run in the failed
state and establishment is never re-attempted; in the original variant the
outputs already produced (including yielded partial content) stand,
followed by the error payload; in the improved variant the events already
delivered to the sink stand but the returned accumulated answer is
discarded — the caller receives the empty string. -/
theorem c7_midstream_error :
    (∀ (cfg : Cfg) (items : List ReadItem) (outs : List Output),
      cfg.valves.DEV_MODE = false →
      processItems cfg items = (outs, some PErr.readErr) →
      lettaStream cfg items =
        (outs ++ (if displayEvents cfg then devEvent cfg (Emitted.errorEvent PErr.readErr) else [])
          ++ [Output.errorYield PErr.readErr], RunStatus.failed PErr.readErr)) ∧
    (∀ (dev has : Bool) (items : List ReadItem) (t : List IOut) (e : PErr),
      iLoop ⟨dev, true, true, has⟩ [] items = (t, ILoopEnd.erred e) →
      improvedPipe dev has items =
        (emitStatusI has "info".data "Sending request to Letta agent...".data false ++ t ++
          emitStatusI has "error".data ("Error processing request: ".data ++ perrName e) true, [])) ∧
    (∀ (cfg : Cfg) (outcome : Nat → AttemptOutcome) (items : List ReadItem),
      (fullRun cfg outcome (items ++ [ReadItem.readError])).1 = (fullRun cfg outcome items).1) := by
  refine ⟨?_, ?_, ?_⟩
  · intro cfg items outs hdev hpi
    rw [lettaStream, hpi]
    simp [tryLog, hdev]
  · intro dev has items t e hloop
    simp only [improvedPipe, getLettaResponse, hloop]
  · intro cfg outcome items
    cases h : sendRequest outcome <;> simp [fullRun, h]

/-- Claim C7 witness: the amended theorem at the concrete partial-content
stream followed by a read error. -/
theorem c7_midstream_error_witness :
    lettaStream cfgQuiet partialThenError =
      ([Output.content "Hi\n".data, Output.errorYield PErr.readErr], RunStatus.failed PErr.readErr) ∧
    improvedPipe false true partialThenError =
      ([IOut.statusEv "info".data "Sending request to Letta agent...".data false,
        IOut.statusEv "info".data [] true,
        IOut.message (Json.str "Hi".data),
        IOut.statusEv "error".data ("Error processing request: ".data ++ perrName PErr.readErr) true],
       []) ∧
    (fullRun cfgQuiet (fun _ => AttemptOutcome.success) ([] ++ [ReadItem.readError])).1 =
      (fullRun cfgQuiet (fun _ => AttemptOutcome.success) []).1 := by
  refine ⟨?_, ?_, c7_midstream_error.2.2 cfgQuiet (fun _ => AttemptOutcome.success) []⟩
  · exact c7_midstream_error.1 cfgQuiet partialThenError [Output.content "Hi\n".data] rfl rfl
  · exact c7_midstream_error.2.1 false true partialThenError
      [IOut.statusEv "info".data [] true, IOut.message (Json.str "Hi".data)] PErr.readErr rfl

/-- Claim C8, counterexample: with diagnostics enabled and a failing log
write, the first raw-chunk log write raises, the error-path log write
raises again, the exception escapes the generator, and the assistant
content in the stream is never yielded — a diagnostic write failure fails
the main run instead of being swallowed. -/
theorem c8_counterexample :
    lettaStream c8cfg [ReadItem.chunk scenarioA] = ([], RunStatus.raisedErr PErr.logWrite) ∧
    contentsOf (lettaStream c8cfg [ReadItem.chunk scenarioA]).1 = [] :=
  ⟨rfl, rfl⟩

/-- Claim C8 (amended): a diagnostic write failure is not swallowed: with
dev mode, response saving and raw-chunk logging enabled and a failing log
destination, every run aborts on its first chunk — no output is produced,
the exception escapes while being handled, and the remaining stream is
never processed. -/
theorem c8_log_failure_aborts (cfg : Cfg) (s : Str) (rest : List ReadItem)
    (hdev : cfg.valves.DEV_MODE = true) (hsave : cfg.valves.SAVE_RESPONSES = true)
    (hraw : cfg.valves.LOG_RAW_CHUNKS = true) (hfail : cfg.logFails = true) :
    lettaStream cfg (ReadItem.chunk s :: rest) = ([], RunStatus.raisedErr PErr.logWrite) := by
  have hitem : processItem cfg (ReadItem.chunk s) = ([], some PErr.logWrite) := by
    simp [processItem, tryLog, hdev, hsave, hraw, hfail, seqOut]
  have hpi : processItems cfg (ReadItem.chunk s :: rest) = ([], some PErr.logWrite) := by
    rw [processItems, hitem]
    rfl
  rw [lettaStream, hpi]
  simp [tryLog, hdev, hsave, hfail]

/-- Claim C8 witness: the amended theorem at the concrete failing-log
configuration. -/
theorem c8_log_failure_aborts_witness :
    lettaStream c8cfg (ReadItem.chunk "x".data :: []) = ([], RunStatus.raisedErr PErr.logWrite) :=
  c8_log_failure_aborts c8cfg "x".data [] rfl rfl rfl rfl

/-- Claim C9: with a non-empty history, the outbound payload carries
exactly one message — the most recent element of the formatted history —
in both variants; earlier messages are never sent. -/
theorem c9_last_message_only (msgs : List Msg) (h : msgs ≠ []) :
    (∃ m, (lettaFormatMessages msgs).getLast? = some m ∧ lettaPayloadMessages msgs = [some m]) ∧
    (∃ m, (improvedFormatMessages msgs).getLast? = some m ∧ improvedPayloadMessages msgs = [m]) := by
  constructor
  · have hne : lettaFormatMessages msgs ≠ [] := by
      rw [lettaFormatMessages]
      intro hc
      exact h (List.map_eq_nil_iff.mp hc)
    cases hl : (lettaFormatMessages msgs).getLast? with
    | none => exact absurd (List.getLast?_eq_none_iff.mp hl) hne
    | some m => exact ⟨m, rfl, by rw [lettaPayloadMessages, hl]⟩
  · have hne : improvedFormatMessages msgs ≠ [] := by
      rw [improvedFormatMessages]
      split
      · simp
      · rename_i hfs
        intro hc
        rw [hc] at hfs
        exact hfs rfl
    cases hl : (improvedFormatMessages msgs).getLast? with
    | none => exact absurd (List.getLast?_eq_none_iff.mp hl) hne
    | some m => exact ⟨m, rfl, by rw [improvedPayloadMessages, hl]⟩

/-- Claim C9 witness: the theorem at a concrete two-message history. -/
theorem c9_last_message_only_witness :
    (∃ m, (lettaFormatMessages [⟨"user".data, "a".data⟩, ⟨"assistant".data, "b".data⟩]).getLast? = some m ∧
      lettaPayloadMessages [⟨"user".data, "a".data⟩, ⟨"assistant".data, "b".data⟩] = [some m]) ∧
    (∃ m, (improvedFormatMessages [⟨"user".data, "a".data⟩, ⟨"assistant".data, "b".data⟩]).getLast? = some m ∧
      improvedPayloadMessages [⟨"user".data, "a".data⟩, ⟨"assistant".data, "b".data⟩] = [m]) :=
  c9_last_message_only [⟨"user".data, "a".data⟩, ⟨"assistant".data, "b".data⟩] (by decide)

/-- Claim C10: every message in the outbound payload of either variant has
role `user` or `system`; any message whose role is not `system` (in
particular `assistant`) is sent with role `user`; the role `assistant`
never appears in the formatted output. -/
theorem c10_roles (msgs : List Msg) :
    (∀ m, m ∈ lettaFormatMessages msgs → m.role = "user".data ∨ m.role = "system".data) ∧
    (∀ m, m ∈ improvedFormatMessages msgs → m.role = "user".data ∨ m.role = "system".data) ∧
    (∀ m : Msg, m.role ≠ "system".data → (lettaFormatOne m).role = "user".data) ∧
    (∀ m, m ∈ lettaFormatMessages msgs → m.role ≠ "assistant".data) ∧
    (∀ m, m ∈ improvedFormatMessages msgs → m.role ≠ "assistant".data) := by
  have hone : ∀ m : Msg, (lettaFormatOne m).role = "user".data ∨ (lettaFormatOne m).role = "system".data := by
    intro m
    rw [lettaFormatOne]
    by_cases hm : m.role = "system".data
    · right
      simp [hm]
    · left
      simp [hm]
  have h1 : ∀ m, m ∈ lettaFormatMessages msgs → m.role = "user".data ∨ m.role = "system".data := by
    intro m hm
    rw [lettaFormatMessages] at hm
    obtain ⟨m0, _, rfl⟩ := List.mem_map.mp hm
    exact hone m0
  have h2 : ∀ m, m ∈ improvedFormatMessages msgs → m.role = "user".data ∨ m.role = "system".data := by
    intro m hm
    rw [improvedFormatMessages] at hm
    split at hm
    · rw [List.mem_singleton] at hm
      subst hm
      left
      rfl
    · obtain ⟨m0, _, rfl⟩ := List.mem_map.mp hm
      exact hone m0
  have hua : ¬ ("user".data = "assistant".data) := by decide
  have hsa : ¬ ("system".data = "assistant".data) := by decide
  refine ⟨h1, h2, ?_, ?_, ?_⟩
  · intro m hm
    rw [lettaFormatOne]
    simp [hm]
  · intro m hm hass
    rcases h1 m hm with hc | hc <;> rw [hc] at hass
    · exact hua hass
    · exact hsa hass
  · intro m hm hass
    rcases h2 m hm with hc | hc <;> rw [hc] at hass
    · exact hua hass
    · exact hsa hass

/-- Claim C10 witness: the theorem applied to a concrete assistant
message. -/
theorem c10_roles_witness :
    (lettaFormatOne ⟨"assistant".data, "hi".data⟩).role = "user".data ∧
    ((lettaFormatOne ⟨"assistant".data, "hi".data⟩).role = "user".data ∨
      (lettaFormatOne ⟨"assistant".data, "hi".data⟩).role = "system".data) ∧
    (lettaFormatOne ⟨"assistant".data, "hi".data⟩).role ≠ "assistant".data := by
  have h := c10_roles [⟨"assistant".data, "hi".data⟩]
  have hmem : lettaFormatOne ⟨"assistant".data, "hi".data⟩ ∈
      lettaFormatMessages [⟨"assistant".data, "hi".data⟩] := by decide
  exact ⟨h.2.2.1 ⟨"assistant".data, "hi".data⟩ (by decide), h.1 _ hmem, h.2.2.2.1 _ hmem⟩
